import Mathlib

/-!
Verification of the prompt-generator-launcher VS Code extension
(`src/prompt-generator-launcher/src/extension.ts`).

The development embeds the two core components of the extension:

* the Root Resolver `getWorkspaceRootFsPath`, which picks a workspace root
  from the open folders, an optional URI hint, and the active editor, asking
  the user via a quick pick when ambiguous;
* the Launcher `launchPrompt`, which pre-checks the hardcoded binary path and
  spawns it detached with the resolved root as sole argument and working
  directory.

Filesystem paths are modelled as lists of path segments, so that "path `p`
lies inside root `r`" is segment-wise list containment, matching how the
editor compares URIs. Editor-side effects (error notifications, the quick
pick, `fs.existsSync`, `spawn`) are modelled explicitly: notifications and
prompts are recorded in the result structures, and the operating environment
is a record of oracles (`Env`). A `spawn` failure is modelled as the
synchronous exception that the source's `try`/`catch` handles.
-/

/-- A filesystem path, as a list of path segments. -/
abbrev FsPath := List String

/-- One entry of `vscode.workspace.workspaceFolders`: a display name and the
absolute filesystem path of the folder (`f.uri.fsPath` in the source). -/
structure WorkspaceFolder where
  name : String
  fsPath : FsPath
deriving DecidableEq, Repr

/-- An item passed to `vscode.window.showQuickPick`; the source builds
`{ label: f.name, description: f.uri.fsPath }` for each open folder. -/
structure QuickPickItem where
  label : String
  description : FsPath
deriving DecidableEq, Repr

/-- `pathInside root p` holds when `p` is inside the directory `root`,
i.e. the segments of `root` are an initial segment of those of `p`. -/
def pathInside : FsPath → FsPath → Bool
  | [], _ => true
  | _ :: _, [] => false
  | a :: r, b :: p => a == b && pathInside r p

/-- Modelled from the spec: the editor API `vscode.workspace.getWorkspaceFolder`
is not part of this repository; per the spec (§4.1 rule 2 and its tie-break
rule) it returns the open root containing the given path, and when open roots
are nested the root with the longest matching prefix wins. Returns `none`
when no open root contains the path. -/
def getWorkspaceFolder : List WorkspaceFolder → FsPath → Option WorkspaceFolder
  | [], _ => none
  | f :: rest, p =>
    match getWorkspaceFolder rest p with
    | none => if pathInside f.fsPath p then some f else none
    | some b =>
      if pathInside f.fsPath p ∧ b.fsPath.length < f.fsPath.length then some f
      else some b

/-- The user-visible error notifications the extension can raise via
`vscode.window.showErrorMessage`, by kind, carrying the data that the source
interpolates into the message text. -/
inductive UserError where
  /-- Source text: `No workspace folder is open.` -/
  | noWorkspaceOpen
  /-- Source text: `Prompt binary not found at: <binary> Update
  HARDCODED_PROMPT_BINARY in extension.ts.` — includes remediation guidance. -/
  | binaryNotFound (binary : String)
  /-- Source text: `Failed to start Prompt Generator at <binary> <sysMsg>
  Ensure it is executable (chmod +x) and reachable by Windsurf.` -/
  | launchFailed (binary : String) (sysMsg : String)
deriving DecidableEq, Repr

/-- Outcome of one call to `getWorkspaceRootFsPath`: the returned
`string | undefined`, whether an error notification was shown, and whether
the disambiguation quick pick was shown. -/
structure ResolveResult where
  result : Option FsPath
  shownError : Option UserError
  prompted : Bool
deriving DecidableEq, Repr

/-- Embedding of `getWorkspaceRootFsPath(uriHint?)` from
`src/prompt-generator-launcher/src/extension.ts` (lines 13-46).
The ambient editor state (`vscode.workspace.workspaceFolders`, the active
editor's document URI) and the user's quick-pick response are passed
explicitly; `userPick items` is what `showQuickPick(items, …)` resolves to
(`none` when the user dismisses the prompt). -/
def getWorkspaceRootFsPath (folders : List WorkspaceFolder)
    (uriHint : Option FsPath) (activeUri : Option FsPath)
    (userPick : List QuickPickItem → Option QuickPickItem) : ResolveResult :=
  match folders with
  | [] => { result := none, shownError := some .noWorkspaceOpen, prompted := false }
  | first :: rest =>
    match uriHint.bind (getWorkspaceFolder (first :: rest)) with
    | some ws => { result := some ws.fsPath, shownError := none, prompted := false }
    | none =>
      if rest.isEmpty then
        { result := some first.fsPath, shownError := none, prompted := false }
      else
        match activeUri.bind (getWorkspaceFolder (first :: rest)) with
        | some ws => { result := some ws.fsPath, shownError := none, prompted := false }
        | none =>
          match userPick ((first :: rest).map fun f => ⟨f.name, f.fsPath⟩) with
          | none => { result := none, shownError := none, prompted := true }
          | some pick =>
            match (first :: rest).find? (fun f => f.name == pick.label) with
            | some chosen =>
              { result := some chosen.fsPath, shownError := none, prompted := true }
            | none => { result := none, shownError := none, prompted := true }

/-- The hardcoded absolute path to the prompt binary (extension.ts line 7). -/
def HARDCODED_PROMPT_BINARY : String :=
  "/home/andrew-peterson/code/prompt/target/release/prompt"

/-- One call to `child_process.spawn` as made by the source: command, argument
list, working directory, and the `detached` / `stdio: ignore` options. -/
structure SpawnCall where
  cmd : String
  args : List FsPath
  cwd : FsPath
  detached : Bool
  stdioIgnored : Bool
deriving DecidableEq, Repr

/-- The operating environment the Launcher interacts with. `fileExists` is
`fs.existsSync`; `trySpawn` is the synchronous outcome of
`child_process.spawn` (`none` = a child was started, `some m` = it threw with
system message `m`); `isExecutable` models the OS execute-permission bit — the
source never consults it, it exists only to state spec preconditions. -/
structure Env where
  fileExists : String → Bool
  isExecutable : String → Bool
  trySpawn : SpawnCall → Option String

/-- The spawn call `launchPrompt` makes for a given resolved root:
`spawn(HARDCODED_PROMPT_BINARY, [folderPath], { detached: true,
stdio: ignore, cwd: folderPath })` (extension.ts lines 59-63). -/
def spawnCallFor (folderPath : FsPath) : SpawnCall :=
  { cmd := HARDCODED_PROMPT_BINARY
    args := [folderPath]
    cwd := folderPath
    detached := true
    stdioIgnored := true }

/-- Observable effects of one call to `launchPrompt`: the processes spawned
(in order), whether `child.unref()` was called (the caller releases its
reference to the child), and any error notification shown. -/
structure LaunchEffects where
  spawned : List SpawnCall
  unrefd : Bool
  shownError : Option UserError
deriving DecidableEq, Repr

/-- Embedding of `launchPrompt(folderPath)` from extension.ts (lines 49-71):
pre-check `fs.existsSync` on the hardcoded binary, else spawn detached inside
`try`/`catch`, converting a synchronous spawn failure into a notification. -/
def launchPrompt (env : Env) (folderPath : FsPath) : LaunchEffects :=
  if env.fileExists HARDCODED_PROMPT_BINARY = false then
    { spawned := []
      unrefd := false
      shownError := some (.binaryNotFound HARDCODED_PROMPT_BINARY) }
  else
    match env.trySpawn (spawnCallFor folderPath) with
    | none =>
      { spawned := [spawnCallFor folderPath], unrefd := true, shownError := none }
    | some m =>
      { spawned := []
        unrefd := false
        shownError := some (.launchFailed HARDCODED_PROMPT_BINARY m) }

/-- Combined effects of one invocation of the `promptGenerator.open` command
handler (extension.ts lines 87-91): resolve a root, then launch, or do
nothing when resolution yielded `undefined`. -/
structure CommandEffects where
  resolve : ResolveResult
  launch : Option LaunchEffects
deriving DecidableEq, Repr

/-- Embedding of the `promptGenerator.open` command handler: `const fsPath =
await getWorkspaceRootFsPath(uri); if (!fsPath) return; launchPrompt(fsPath);`. -/
def promptGeneratorOpen (env : Env) (folders : List WorkspaceFolder)
    (uriHint : Option FsPath) (activeUri : Option FsPath)
    (userPick : List QuickPickItem → Option QuickPickItem) : CommandEffects :=
  let r := getWorkspaceRootFsPath folders uriHint activeUri userPick
  match r.result with
  | none => { resolve := r, launch := none }
  | some p => { resolve := r, launch := some (launchPrompt env p) }

/-- Embedding of the `promptGenerator.openHere` command handler (extension.ts
lines 94-98): same as `promptGenerator.open` with no URI hint. -/
def promptGeneratorOpenHere (env : Env) (folders : List WorkspaceFolder)
    (activeUri : Option FsPath)
    (userPick : List QuickPickItem → Option QuickPickItem) : CommandEffects :=
  promptGeneratorOpen env folders none activeUri userPick

/-- The processes spawned by one command invocation. -/
def CommandEffects.spawnedProcesses (c : CommandEffects) : List SpawnCall :=
  match c.launch with
  | none => []
  | some l => l.spawned

/-- `isBlank s` holds when `s` consists only of whitespace (including the
empty string). -/
def isBlank (s : String) : Bool := s.toList.all (fun c => c.isWhitespace)

/-- Follows the spec's words (§6, Configuration), for comparison with the
source: "a single optional string setting giving an override path/name for
the external executable; if absent or blank, a fixed default … is used". -/
def specLaunchBinary (settingOverride : Option String) : String :=
  match settingOverride with
  | none => HARDCODED_PROMPT_BINARY
  | some s => if isBlank s then HARDCODED_PROMPT_BINARY else s

/-- An environment where the binary exists, is executable, and every spawn
succeeds. -/
def envAllOk : Env :=
  { fileExists := fun _ => true
    isExecutable := fun _ => true
    trySpawn := fun _ => none }

/-- An environment where the binary exists on disk but is not executable:
`fs.existsSync` succeeds, and `spawn` throws a permission error. -/
def envNotExecutable : Env :=
  { fileExists := fun _ => true
    isExecutable := fun _ => false
    trySpawn := fun _ => some "EACCES: permission denied" }

/-- An environment where the binary does not exist on disk. -/
def envMissingBinary : Env :=
  { fileExists := fun _ => false
    isExecutable := fun _ => false
    trySpawn := fun _ => some "ENOENT: no such file or directory" }

/-! ### Helper lemmas about `getWorkspaceFolder` and the Root Resolver -/

/-- A folder returned by `getWorkspaceFolder` is one of the open folders. -/
theorem getWorkspaceFolder_mem {folders : List WorkspaceFolder} {p : FsPath}
    {w : WorkspaceFolder} (h : getWorkspaceFolder folders p = some w) :
    w ∈ folders := by
  induction folders with
  | nil => simp [getWorkspaceFolder] at h
  | cons f rest ih =>
    simp only [getWorkspaceFolder] at h
    split at h
    · split at h
      · cases h; exact List.mem_cons_self _ _
      · cases h
    · split at h
      · cases h; exact List.mem_cons_self _ _
      · cases h
        rename_i hrec _
        exact List.mem_cons_of_mem _ (ih hrec)

/-- A folder returned by `getWorkspaceFolder` contains the queried path. -/
theorem getWorkspaceFolder_inside {folders : List WorkspaceFolder} {p : FsPath}
    {w : WorkspaceFolder} (h : getWorkspaceFolder folders p = some w) :
    pathInside w.fsPath p = true := by
  induction folders with
  | nil => simp [getWorkspaceFolder] at h
  | cons f rest ih =>
    simp only [getWorkspaceFolder] at h
    split at h
    · split at h
      · cases h; assumption
      · cases h
    · split at h
      · cases h
        rename_i hcond
        exact hcond.1
      · cases h
        rename_i hrec _
        exact ih hrec

/-- If some open folder contains the path, `getWorkspaceFolder` finds one. -/
theorem getWorkspaceFolder_isSome {folders : List WorkspaceFolder} {p : FsPath}
    (f : WorkspaceFolder) (hf : f ∈ folders) (hc : pathInside f.fsPath p = true) :
    ∃ w, getWorkspaceFolder folders p = some w := by
  induction folders with
  | nil => cases hf
  | cons g rest ih =>
    simp only [getWorkspaceFolder]
    rcases List.mem_cons.mp hf with hfg | hfr
    · cases hfg
      cases hrec : getWorkspaceFolder rest p with
      | none => exact ⟨f, by simp [hc]⟩
      | some b =>
        by_cases hcond : pathInside f.fsPath p ∧ b.fsPath.length < f.fsPath.length
        · exact ⟨f, by simp [hcond]⟩
        · exact ⟨b, by simp [hcond]⟩
    · obtain ⟨w, hw⟩ := ih hfr
      rw [hw]
      by_cases hcond : pathInside g.fsPath p ∧ w.fsPath.length < g.fsPath.length
      · exact ⟨g, by simp [hcond]⟩
      · exact ⟨w, by simp [hcond]⟩

/-- When no open folder contains the path, no match at all is found. -/
theorem getWorkspaceFolder_eq_none_forall {folders : List WorkspaceFolder}
    {p : FsPath} (h : getWorkspaceFolder folders p = none) :
    ∀ g ∈ folders, pathInside g.fsPath p = false := by
  intro g hg
  by_contra hc
  obtain ⟨w, hw⟩ :=
    getWorkspaceFolder_isSome g hg (eq_true_of_ne_false hc)
  rw [h] at hw
  cases hw

/-- A helper extracting, from a successful hint (or active-editor) lookup,
that the found folder is an open folder. -/
theorem bind_getWorkspaceFolder_mem {folders : List WorkspaceFolder}
    {o : Option FsPath} {ws : WorkspaceFolder}
    (h : o.bind (getWorkspaceFolder folders) = some ws) : ws ∈ folders := by
  obtain ⟨u, -, hu⟩ := Option.bind_eq_some.mp h
  exact getWorkspaceFolder_mem hu

/-- The folder returned by `getWorkspaceFolder` has the longest path among
the open folders containing the queried path. -/
theorem getWorkspaceFolder_maximal {folders : List WorkspaceFolder} {p : FsPath}
    {w : WorkspaceFolder} (h : getWorkspaceFolder folders p = some w) :
    ∀ g ∈ folders, pathInside g.fsPath p = true →
      g.fsPath.length ≤ w.fsPath.length := by
  induction folders generalizing w with
  | nil => simp [getWorkspaceFolder] at h
  | cons f rest ih =>
    intro g hg hgp
    simp only [getWorkspaceFolder] at h
    rcases List.mem_cons.mp hg with hgf | hgr
    · cases hgf
      split at h
      · split at h
        · cases h; exact Nat.le_refl _
        · rename_i hcond
          rw [hgp] at hcond
          cases hcond rfl
      · split at h
        · cases h; exact Nat.le_refl _
        · cases h
          rename_i hcond
          exact Nat.le_of_not_lt (not_and.mp hcond hgp)
    · split at h
      · rename_i hrec
        rw [getWorkspaceFolder_eq_none_forall hrec g hgr] at hgp
        cases hgp
      · split at h
        · cases h
          rename_i b hrec hcond
          exact Nat.le_of_lt (Nat.lt_of_le_of_lt (ih hrec g hgr hgp) hcond.2)
        · cases h
          rename_i hrec _
          exact ih hrec g hgr hgp

/-- Any path returned by the Root Resolver is the path of an open folder. -/
theorem getWorkspaceRootFsPath_result_mem {folders : List WorkspaceFolder}
    {uriHint activeUri : Option FsPath}
    {userPick : List QuickPickItem → Option QuickPickItem} {p : FsPath}
    (h : (getWorkspaceRootFsPath folders uriHint activeUri userPick).result
      = some p) :
    ∃ f ∈ folders, p = f.fsPath := by
  cases folders with
  | nil => simp [getWorkspaceRootFsPath] at h
  | cons first rest =>
    simp only [getWorkspaceRootFsPath] at h
    split at h
    · rename_i ws hb
      obtain ⟨u, -, hu⟩ := Option.bind_eq_some.mp hb
      cases h
      exact ⟨ws, getWorkspaceFolder_mem hu, rfl⟩
    · split at h
      · cases h
        exact ⟨first, List.mem_cons_self _ _, rfl⟩
      · split at h
        · rename_i ws hb
          obtain ⟨u, -, hu⟩ := Option.bind_eq_some.mp hb
          cases h
          exact ⟨ws, getWorkspaceFolder_mem hu, rfl⟩
        · split at h
          · cases h
          · split at h
            · rename_i chosen hfind
              cases h
              exact ⟨chosen, List.mem_of_find?_eq_some hfind, rfl⟩
            · cases h

/-- In an ambiguous invocation (at least two open roots, neither the hint nor
the active editor maps to a root), the Root Resolver reduces to the
quick-pick stage: prompt, then map the picked label back through `find?`. -/
theorem getWorkspaceRootFsPath_ambiguous {folders : List WorkspaceFolder}
    {uriHint activeUri : Option FsPath}
    (userPick : List QuickPickItem → Option QuickPickItem)
    (hlen : 2 ≤ folders.length)
    (hhint : uriHint.bind (getWorkspaceFolder folders) = none)
    (hactive : activeUri.bind (getWorkspaceFolder folders) = none) :
    getWorkspaceRootFsPath folders uriHint activeUri userPick =
      match userPick (folders.map fun f => ⟨f.name, f.fsPath⟩) with
      | none => { result := none, shownError := none, prompted := true }
      | some pick =>
        match folders.find? (fun f => f.name == pick.label) with
        | some chosen =>
          { result := some chosen.fsPath, shownError := none, prompted := true }
        | none => { result := none, shownError := none, prompted := true } := by
  cases folders with
  | nil => simp at hlen
  | cons a rest =>
    cases rest with
    | nil => simp at hlen
    | cons b rest2 =>
      unfold getWorkspaceRootFsPath
      dsimp only
      rw [hhint, hactive]
      rfl

/-- In a list of folders with pairwise-distinct display names, searching by a
member's name finds exactly that member. -/
theorem find?_name_nodup {folders : List WorkspaceFolder} {g : WorkspaceFolder}
    (hnd : (folders.map WorkspaceFolder.name).Nodup) (hg : g ∈ folders) :
    folders.find? (fun f => f.name == g.name) = some g := by
  induction folders with
  | nil => cases hg
  | cons f rest ih =>
    simp only [List.map_cons, List.nodup_cons] at hnd
    rcases List.mem_cons.mp hg with rfl | hgr
    · simp [List.find?]
    · have hne : (f.name == g.name) = false := by
        simp only [beq_eq_false_iff_ne, ne_eq]
        intro he
        exact hnd.1 (he ▸ List.mem_map_of_mem _ hgr)
      simp only [List.find?, hne]
      exact ih hnd.2 hgr

/-! ### Claim theorems -/

/-- C1: with an empty list of open roots, resolution yields the
`NoWorkspaceOpen` failure surfaced to the user, no disambiguation prompt is
shown, and no process is spawned — for every hint, active editor state,
quick-pick behaviour and environment. -/
theorem no_workspace_open_aborts (env : Env) (uriHint activeUri : Option FsPath)
    (userPick : List QuickPickItem → Option QuickPickItem) :
    (promptGeneratorOpen env [] uriHint activeUri userPick).resolve =
      { result := none, shownError := some .noWorkspaceOpen, prompted := false } ∧
    (promptGeneratorOpen env [] uriHint activeUri userPick).spawnedProcesses
      = [] := by
  exact ⟨rfl, rfl⟩

/-- C2: with exactly one open root, resolution returns that root's path for
every hint (present or absent, mapping or not) and every active editor state,
never prompting and never surfacing an error. -/
theorem single_root_always_returned (f : WorkspaceFolder)
    (uriHint activeUri : Option FsPath)
    (userPick : List QuickPickItem → Option QuickPickItem) :
    (getWorkspaceRootFsPath [f] uriHint activeUri userPick).result
        = some f.fsPath ∧
    (getWorkspaceRootFsPath [f] uriHint activeUri userPick).prompted = false ∧
    (getWorkspaceRootFsPath [f] uriHint activeUri userPick).shownError
        = none := by
  simp only [getWorkspaceRootFsPath]
  cases hb : uriHint.bind (getWorkspaceFolder [f]) with
  | none => simp
  | some ws =>
    have hmem : ws ∈ [f] := bind_getWorkspaceFolder_mem hb
    have : ws = f := List.mem_singleton.mp hmem
    subst this
    simp

/-- C3: when a hint path is contained in at least one open root, resolution
returns a containing root's path without prompting, and the returned root has
the longest (most specific) path prefix among the open roots containing the
hint — so for nested open roots the more specific one wins. -/
theorem hint_containment_resolution (folders : List WorkspaceFolder)
    (p : FsPath) (activeUri : Option FsPath)
    (userPick : List QuickPickItem → Option QuickPickItem)
    (f : WorkspaceFolder) (hf : f ∈ folders)
    (hc : pathInside f.fsPath p = true) :
    ∃ w ∈ folders,
      pathInside w.fsPath p = true ∧
      (∀ g ∈ folders, pathInside g.fsPath p = true →
        g.fsPath.length ≤ w.fsPath.length) ∧
      (getWorkspaceRootFsPath folders (some p) activeUri userPick).result
        = some w.fsPath ∧
      (getWorkspaceRootFsPath folders (some p) activeUri userPick).prompted
        = false := by
  obtain ⟨w, hw⟩ := getWorkspaceFolder_isSome f hf hc
  refine ⟨w, getWorkspaceFolder_mem hw, getWorkspaceFolder_inside hw,
    getWorkspaceFolder_maximal hw, ?_, ?_⟩ <;>
  · cases folders with
    | nil => cases hf
    | cons first rest =>
      have hb : (some p).bind (getWorkspaceFolder (first :: rest)) = some w := hw
      unfold getWorkspaceRootFsPath
      dsimp only
      rw [hb]

/-- Witness for C3: two nested open roots and a hint inside the inner one. -/
theorem hint_containment_resolution_witness :
    ∃ w ∈ [(⟨"outer", ["ws"]⟩ : WorkspaceFolder), ⟨"inner", ["ws","a"]⟩],
      pathInside w.fsPath ["ws","a","f.ts"] = true ∧
      (∀ g ∈ [(⟨"outer", ["ws"]⟩ : WorkspaceFolder), ⟨"inner", ["ws","a"]⟩],
        pathInside g.fsPath ["ws","a","f.ts"] = true →
        g.fsPath.length ≤ w.fsPath.length) ∧
      (getWorkspaceRootFsPath [⟨"outer", ["ws"]⟩, ⟨"inner", ["ws","a"]⟩]
          (some ["ws","a","f.ts"]) none (fun _ => none)).result
        = some w.fsPath ∧
      (getWorkspaceRootFsPath [⟨"outer", ["ws"]⟩, ⟨"inner", ["ws","a"]⟩]
          (some ["ws","a","f.ts"]) none (fun _ => none)).prompted = false :=
  hint_containment_resolution [⟨"outer", ["ws"]⟩, ⟨"inner", ["ws","a"]⟩]
    ["ws","a","f.ts"] none (fun _ => none) ⟨"inner", ["ws","a"]⟩
    (by decide) (by decide)

/-- C4 counterexample: with two open roots sharing the display name "src",
no hint and no active editor, resolution prompts and the user picks the
second root's entry (the item describing `["repo2","src"]`), yet the result
is the first root's path — neither the root the user picked nor the "none"
outcome, refuting the claim as stated. -/
theorem picked_root_not_returned :
    (getWorkspaceRootFsPath
        [⟨"src", ["repo1","src"]⟩, ⟨"src", ["repo2","src"]⟩]
        none none (fun items => items[1]?)).prompted = true ∧
    (((([⟨"src", ["repo1","src"]⟩, ⟨"src", ["repo2","src"]⟩] :
        List WorkspaceFolder)).map fun f =>
          (⟨f.name, f.fsPath⟩ : QuickPickItem))[1]?
      = some ⟨"src", ["repo2","src"]⟩) ∧
    (getWorkspaceRootFsPath
        [⟨"src", ["repo1","src"]⟩, ⟨"src", ["repo2","src"]⟩]
        none none (fun items => items[1]?)).result ≠ some ["repo2","src"] ∧
    (getWorkspaceRootFsPath
        [⟨"src", ["repo1","src"]⟩, ⟨"src", ["repo2","src"]⟩]
        none none (fun items => items[1]?)).result ≠ none := by
  decide

/-- C4 (amended): in ambiguous cases (at least two open roots, no hint and no
active editor mapping to a root) resolution always shows the disambiguation
prompt and surfaces no error; dismissal yields the "none" outcome silently
with no process spawned; when the user picks an entry of the shown list the
result is the path of the first open root whose display name equals the
picked label — which is exactly the picked root whenever display names are
pairwise distinct — and a root not among the open roots is never produced. -/
theorem ambiguous_resolution (env : Env) (folders : List WorkspaceFolder)
    (uriHint activeUri : Option FsPath)
    (userPick : List QuickPickItem → Option QuickPickItem)
    (hlen : 2 ≤ folders.length)
    (hhint : uriHint.bind (getWorkspaceFolder folders) = none)
    (hactive : activeUri.bind (getWorkspaceFolder folders) = none) :
    (getWorkspaceRootFsPath folders uriHint activeUri userPick).prompted = true ∧
    (getWorkspaceRootFsPath folders uriHint activeUri userPick).shownError
        = none ∧
    (userPick (folders.map fun f => ⟨f.name, f.fsPath⟩) = none →
      (getWorkspaceRootFsPath folders uriHint activeUri userPick).result = none ∧
      (promptGeneratorOpen env folders uriHint activeUri
          userPick).spawnedProcesses = []) ∧
    (∀ pick, userPick (folders.map fun f => ⟨f.name, f.fsPath⟩) = some pick →
      pick ∈ (folders.map fun f => (⟨f.name, f.fsPath⟩ : QuickPickItem)) →
      ∃ g ∈ folders, g.name = pick.label ∧
        folders.find? (fun f => f.name == pick.label) = some g ∧
        (getWorkspaceRootFsPath folders uriHint activeUri userPick).result
          = some g.fsPath) ∧
    ((folders.map WorkspaceFolder.name).Nodup →
      ∀ g ∈ folders,
        userPick (folders.map fun f => ⟨f.name, f.fsPath⟩)
            = some ⟨g.name, g.fsPath⟩ →
        (getWorkspaceRootFsPath folders uriHint activeUri userPick).result
          = some g.fsPath) := by
  have hamb := getWorkspaceRootFsPath_ambiguous userPick hlen hhint hactive
  refine ⟨?_, ?_, ?_, ?_, ?_⟩
  · rw [hamb]
    rcases hp : userPick (folders.map fun f => ⟨f.name, f.fsPath⟩) with _ | pick
    · simp [hp]
    · rcases hfind : folders.find? (fun f => f.name == pick.label) with _ | chosen
      · simp [hp, hfind]
      · simp [hp, hfind]
  · rw [hamb]
    rcases hp : userPick (folders.map fun f => ⟨f.name, f.fsPath⟩) with _ | pick
    · simp [hp]
    · rcases hfind : folders.find? (fun f => f.name == pick.label) with _ | chosen
      · simp [hp, hfind]
      · simp [hp, hfind]
  · intro hp
    have hres : (getWorkspaceRootFsPath folders uriHint activeUri
        userPick).result = none := by
      rw [hamb, hp]
    refine ⟨hres, ?_⟩
    simp [promptGeneratorOpen, CommandEffects.spawnedProcesses, hres]
  · intro pick hp hmem
    obtain ⟨g, hgmem, rfl⟩ := List.mem_map.mp hmem
    cases hfind : folders.find?
        (fun f => f.name == QuickPickItem.label ⟨g.name, g.fsPath⟩) with
    | none =>
      exact absurd
        (by simp :
          (fun f => f.name == QuickPickItem.label ⟨g.name, g.fsPath⟩) g = true)
        (by simpa using List.find?_eq_none.mp hfind g hgmem)
    | some chosen =>
      refine ⟨chosen, List.mem_of_find?_eq_some hfind, ?_, rfl, ?_⟩
      · simpa using List.find?_some hfind
      · simp only [hamb, hp]
        simp [hfind]
  · intro hnd g hg hp
    have hfind := find?_name_nodup hnd hg
    simp only [hamb, hp]
    simp [hfind]

/-- Witness for C4 (amended): two distinct roots, no hint, no active editor,
and a user who dismisses the prompt. -/
theorem ambiguous_resolution_witness :
    (getWorkspaceRootFsPath [⟨"a", ["wa"]⟩, ⟨"b", ["wb"]⟩] none none
        (fun _ => none)).prompted = true :=
  (ambiguous_resolution envAllOk [⟨"a", ["wa"]⟩, ⟨"b", ["wb"]⟩] none none
    (fun _ => none) (by decide) rfl rfl).1

/-- C5: when the precondition check passes and the spawn succeeds, the
Launcher starts exactly one process: the configured binary with argument list
exactly `[root]`, working directory `root`, detached, with stdio
disconnected; it calls `unref` to release the child reference and shows no
error. (The model returns to the caller immediately by construction: no wait
on or monitoring of the child is represented anywhere in the effects.) -/
theorem launch_spawns_exactly_one_detached (env : Env) (root : FsPath)
    (hex : env.fileExists HARDCODED_PROMPT_BINARY = true)
    (hok : env.trySpawn (spawnCallFor root) = none) :
    (launchPrompt env root).spawned = [spawnCallFor root] ∧
    (spawnCallFor root).cmd = HARDCODED_PROMPT_BINARY ∧
    (spawnCallFor root).args = [root] ∧
    (spawnCallFor root).cwd = root ∧
    (spawnCallFor root).detached = true ∧
    (spawnCallFor root).stdioIgnored = true ∧
    (launchPrompt env root).unrefd = true ∧
    (launchPrompt env root).shownError = none := by
  refine ⟨?_, rfl, rfl, rfl, rfl, rfl, ?_, ?_⟩ <;> simp [launchPrompt, hex, hok]

/-- Witness for C5: a healthy environment and the root `["ws","a"]`. -/
theorem launch_spawns_exactly_one_detached_witness :
    (launchPrompt envAllOk ["ws","a"]).spawned = [spawnCallFor ["ws","a"]] :=
  (launch_spawns_exactly_one_detached envAllOk ["ws","a"] rfl rfl).1

/-- C6 counterexample: in an environment where the binary exists on disk but
is not executable, the claimed precondition "existing, executable file" fails,
yet the Launcher does not report `BinaryNotFound`: the existence-only
pre-check passes and the spawn failure is reported as `LaunchFailed` instead,
refuting the claim as stated. -/
theorem existing_nonexecutable_not_binaryNotFound :
    envNotExecutable.fileExists HARDCODED_PROMPT_BINARY = true ∧
    envNotExecutable.isExecutable HARDCODED_PROMPT_BINARY = false ∧
    (launchPrompt envNotExecutable ["ws","a"]).shownError
      = some (.launchFailed HARDCODED_PROMPT_BINARY
          "EACCES: permission denied") ∧
    (launchPrompt envNotExecutable ["ws","a"]).shownError
      ≠ some (.binaryNotFound HARDCODED_PROMPT_BINARY) := by
  refine ⟨rfl, rfl, rfl, ?_⟩
  simp [launchPrompt, envNotExecutable]

/-- C6 (amended): the Launcher checks before spawning that the binary path
exists on disk (existence only — executability is not pre-checked); whenever
the file does not exist it reports `BinaryNotFound` (whose message carries
remediation guidance) and spawns nothing. -/
theorem missing_binary_reported (env : Env) (root : FsPath)
    (hmiss : env.fileExists HARDCODED_PROMPT_BINARY = false) :
    launchPrompt env root =
      { spawned := [], unrefd := false,
        shownError := some (.binaryNotFound HARDCODED_PROMPT_BINARY) } := by
  simp [launchPrompt, hmiss]

/-- Witness for C6 (amended): an environment with the binary absent. -/
theorem missing_binary_reported_witness :
    launchPrompt envMissingBinary ["ws","a"] =
      { spawned := [], unrefd := false,
        shownError := some (.binaryNotFound HARDCODED_PROMPT_BINARY) } :=
  missing_binary_reported envMissingBinary ["ws","a"] rfl

/-- C7: every failure of the spawn (any system message `m`, e.g. permission
denied or disappearance of the executable between the pre-check and the
spawn) is caught inside the Launcher and converted into the `LaunchFailed`
notification carrying the underlying system message; the Launcher still
returns a well-defined effects record (it is a total function), so no spawn
failure escapes as an uncaught fault, and nothing is spawned. -/
theorem launch_failure_caught (env : Env) (root : FsPath) (m : String)
    (hex : env.fileExists HARDCODED_PROMPT_BINARY = true)
    (herr : env.trySpawn (spawnCallFor root) = some m) :
    launchPrompt env root =
      { spawned := [], unrefd := false,
        shownError := some (.launchFailed HARDCODED_PROMPT_BINARY m) } := by
  simp [launchPrompt, hex, herr]

/-- Witness for C7: spawning in an environment that refuses with EACCES. -/
theorem launch_failure_caught_witness :
    launchPrompt envNotExecutable ["ws","a"] =
      { spawned := [], unrefd := false,
        shownError := some (.launchFailed HARDCODED_PROMPT_BINARY
          "EACCES: permission denied") } :=
  launch_failure_caught envNotExecutable ["ws","a"] "EACCES: permission denied"
    rfl rfl

/-- C8 counterexample: with the override setting present and non-blank
(`"/custom/prompt"`), the spec-side executable reference is the override, but
what the Launcher spawns is still the hardcoded default — the source reads no
configuration setting at all — refuting the claim as stated. -/
theorem override_setting_ignored :
    specLaunchBinary (some "/custom/prompt") = "/custom/prompt" ∧
    isBlank "/custom/prompt" = false ∧
    (launchPrompt envAllOk ["ws","a"]).spawned.map SpawnCall.cmd
      = [HARDCODED_PROMPT_BINARY] ∧
    HARDCODED_PROMPT_BINARY ≠ "/custom/prompt" := by
  refine ⟨?_, by decide, rfl, by decide⟩
  simp [specLaunchBinary, isBlank]

/-- C8 (amended): for every invocation, the executable reference used by the
Launcher is the fixed hardcoded default `HARDCODED_PROMPT_BINARY`; no
configuration setting is consulted, so every spawned process runs that
binary. -/
theorem launcher_binary_always_hardcoded (env : Env) (root : FsPath) :
    ∀ c ∈ (launchPrompt env root).spawned, c.cmd = HARDCODED_PROMPT_BINARY := by
  intro c hc
  by_cases hex : env.fileExists HARDCODED_PROMPT_BINARY = false
  · simp [launchPrompt, hex] at hc
  · rcases hs : env.trySpawn (spawnCallFor root) with _ | m
    · simp [launchPrompt, hex, hs] at hc
      subst hc
      rfl
    · simp [launchPrompt, hex, hs] at hc

/-- Witness for C8 (amended): the one process spawned in a healthy
environment runs the hardcoded binary. -/
theorem launcher_binary_always_hardcoded_witness :
    (spawnCallFor ["ws","a"]).cmd = HARDCODED_PROMPT_BINARY :=
  launcher_binary_always_hardcoded envAllOk ["ws","a"] (spawnCallFor ["ws","a"])
    (by simp [launchPrompt, envAllOk])

/-- C9: every invocation produces exactly one outcome — either the "none"
outcome, in which case the Launcher is never invoked, or the path of one of
the currently open roots, in which case the Launcher is invoked exactly once
with exactly that path; a path not among the open roots is never handed to
the Launcher. -/
theorem resolver_outcome_invariant (env : Env) (folders : List WorkspaceFolder)
    (uriHint activeUri : Option FsPath)
    (userPick : List QuickPickItem → Option QuickPickItem) :
    ((promptGeneratorOpen env folders uriHint activeUri
        userPick).resolve.result = none ∧
     (promptGeneratorOpen env folders uriHint activeUri userPick).launch
        = none) ∨
    (∃ f ∈ folders,
      (promptGeneratorOpen env folders uriHint activeUri
          userPick).resolve.result = some f.fsPath ∧
      (promptGeneratorOpen env folders uriHint activeUri userPick).launch
        = some (launchPrompt env f.fsPath)) := by
  cases hr : (getWorkspaceRootFsPath folders uriHint activeUri userPick).result with
  | none =>
    left
    exact ⟨by simp [promptGeneratorOpen, hr], by simp [promptGeneratorOpen, hr]⟩
  | some p =>
    right
    obtain ⟨f, hfmem, rfl⟩ := getWorkspaceRootFsPath_result_mem hr
    exact ⟨f, hfmem, by simp [promptGeneratorOpen, hr],
      by simp [promptGeneratorOpen, hr]⟩

/-- C10: after the disambiguation prompt, the picked entry is mapped back to
an open root by display name only — the result is the path of the first open
root whose name equals the picked label; consequently, for any two distinct
open roots sharing a display name, picking the later one's entry yields the
earlier root's path. -/
theorem quickpick_maps_by_name :
    (∀ (folders : List WorkspaceFolder) (uriHint activeUri : Option FsPath)
        (userPick : List QuickPickItem → Option QuickPickItem)
        (pick : QuickPickItem),
      2 ≤ folders.length →
      uriHint.bind (getWorkspaceFolder folders) = none →
      activeUri.bind (getWorkspaceFolder folders) = none →
      userPick (folders.map fun f => ⟨f.name, f.fsPath⟩) = some pick →
      (getWorkspaceRootFsPath folders uriHint activeUri userPick).result
        = (folders.find? (fun f => f.name == pick.label)).map
            WorkspaceFolder.fsPath) ∧
    (∀ a b : WorkspaceFolder, a.name = b.name → a.fsPath ≠ b.fsPath →
      (getWorkspaceRootFsPath [a, b] none none
          (fun items => items[1]?)).result = some a.fsPath ∧
      some a.fsPath ≠ some b.fsPath) := by
  constructor
  · intro folders uriHint activeUri userPick pick hlen hhint hactive hp
    have hamb := getWorkspaceRootFsPath_ambiguous userPick hlen hhint hactive
    rcases hfind : folders.find? (fun f => f.name == pick.label) with _ | chosen
    · simp only [hamb]
      simp [hp, hfind]
    · simp only [hamb]
      simp [hp, hfind]
  · intro a b hname hpath
    have hamb := @getWorkspaceRootFsPath_ambiguous [a, b] none none
      (fun items => items[1]?) (by simp) rfl rfl
    constructor
    · simp only [hamb]
      simp [List.find?, hname]
    · simpa using hpath

/-- Witness for C10: two roots both named "dup"; picking the second entry
yields the first root's path `["ws","x"]`. -/
theorem quickpick_maps_by_name_witness :
    (getWorkspaceRootFsPath [⟨"dup", ["ws","x"]⟩, ⟨"dup", ["ws","y"]⟩] none none
        (fun items => items[1]?)).result = some ["ws","x"] :=
  (quickpick_maps_by_name.2 ⟨"dup", ["ws","x"]⟩ ⟨"dup", ["ws","y"]⟩ rfl
    (by decide)).1
